import Mathlib

/-!
Verification of the reminder-scheduling and reminder-dispatch core of the
RecallTrial application (src/server/storage.ts, src/server/routes.ts,
src/server/email.ts).

Instants are modelled as integers: milliseconds since the Unix epoch, as in
JavaScript `Date.getTime()`.  Civil dates are year/month/day triples; the
conversion to epoch days uses the standard Gregorian days-from-civil
algorithm, valid for dates at or after 1970-01-01 (every date the
application handles).
-/

namespace Recalltrial

/-- Number of days from 1970-01-01 to the given Gregorian civil date
(valid for dates at or after 1970-01-01).  This models the date part of
JavaScript `new Date("YYYY-MM-DDT...Z").getTime()`. -/
def daysFromCivil (y m d : Nat) : Nat :=
  let y2 := if m ≤ 2 then y - 1 else y
  let era := y2 / 400
  let yoe := y2 - era * 400
  let mp := if m > 2 then m - 3 else m + 9
  let doy := (153 * mp + 2) / 5 + d - 1
  let doe := yoe * 365 + yoe / 4 - yoe / 100 + doy
  era * 146097 + doe - 719468

/-- A civil calendar date (no time-of-day, no zone), as carried by
`Trial.endDate` strings of the form "YYYY-MM-DD". -/
structure CivilDate where
  year : Nat
  month : Nat
  day : Nat
deriving DecidableEq

/-- Epoch milliseconds of midnight UTC on the given civil date:
models `new Date(endDateStr + "T00:00:00.000Z").getTime()`. -/
def civilMs (e : CivilDate) : Int :=
  (daysFromCivil e.year e.month e.day : Int) * 86400000

/-- A time-zone database: maps an IANA zone name to the zone's true
UTC-offset function (minutes east of UTC as a function of the instant),
or `none` when the name is unresolvable.  This models the behaviour of
`Intl.DateTimeFormat` with a `timeZone` option: construction throws for an
unresolvable name (the `none` case), and otherwise `formatToParts` reports
the wall-clock fields of `refDate + offset(refDate)`. -/
def Tzdb : Type := String → Option (Int → Int)

/-- Hour-of-day (UTC) of an instant, modelling `Date.prototype.getUTCHours`
for instants at or after the epoch. -/
def utcHourOf (t : Int) : Int := t / 3600000 % 24

/-- Minute-of-hour (UTC) of an instant, modelling
`Date.prototype.getUTCMinutes` for instants at or after the epoch. -/
def utcMinuteOf (t : Int) : Int := t / 60000 % 60

/-- Embedding of `getTimezoneOffsetMs` (src/server/routes.ts, lines
423-445 of the concatenated server source).  The `try` block formats
`refDate` in the requested zone and compares the reported local
hour/minute with the UTC hour/minute of `refDate`; an unresolvable zone
name makes the formatter constructor throw, and the `catch` returns 0. -/
def getTimezoneOffsetMs (tzdb : Tzdb) (timezone : String) (refDate : Int) : Int :=
  match tzdb timezone with
  | none => 0
  | some ofs =>
    let localInstant := refDate + ofs refDate * 60000
    let localH := utcHourOf localInstant
    let localM := utcMinuteOf localInstant
    let utcH := utcHourOf refDate
    let utcM := utcMinuteOf refDate
    ((localH - utcH) * 60 + (localM - utcM)) * 60000

/-- One planned reminder, modelling the `ReminderPlan` record type
`{ remindAt: Date; type: string }`. -/
structure ReminderPlan where
  remindAt : Int
  type : String
deriving DecidableEq

/-- The safety margin `minFutureMs = 2 * 60 * 1000` of `computeReminders`. -/
def minFutureMs : Int := 2 * 60 * 1000

/-- Embedding of `computeReminders` (src/server/routes.ts, lines 447-485
of the concatenated server source).  The source compares
`timeLeftHours = timeLeftMs / 3600000` (an exact-sign floating division)
against 0, 24 and 72; those comparisons are expressed here as the
equivalent integer comparisons of `timeLeftMs` against 0, 24 h and 72 h
in milliseconds.  The source's push-loop over `offsets` is expressed as
a filter followed by a map. -/
def computeReminders (tzdb : Tzdb) (endDate : CivilDate) (now : Int)
    (timezone : String) : List ReminderPlan :=
  let tzOffsetMs := getTimezoneOffsetMs tzdb timezone now
  let endDateTimeUtc := (civilMs endDate + 86399000) - tzOffsetMs
  let timeLeftMs := endDateTimeUtc - now
  if timeLeftMs ≤ 0 then []
  else
    let offsets : List (Int × String) :=
      if timeLeftMs < 24 * 3600000 then
        [(6, "SIX_HOURS"), (1, "ONE_HOUR")]
      else if timeLeftMs < 72 * 3600000 then
        [(24, "TWENTY_FOUR_HOURS"), (3, "THREE_HOURS")]
      else
        [(72, "THREE_DAYS"), (24, "ONE_DAY")]
    (offsets.filter
        (fun o => decide (endDateTimeUtc - o.1 * 3600000 > now + minFutureMs))).map
      (fun o => { remindAt := endDateTimeUtc - o.1 * 3600000, type := o.2 })

/-- A small concrete time-zone database used for concrete evaluations:
"UTC" and "Etc/Zero" are fixed-offset-zero zones; "Springward" is a
DST-style zone whose offset is +60 minutes up to 2025-06-01T00:00:00Z
and 0 afterwards; every other name is unresolvable. -/
def demoTzdb : Tzdb := fun z =>
  if z = "UTC" then some (fun _ => 0)
  else if z = "Etc/Zero" then some (fun _ => 0)
  else if z = "Springward" then some (fun t => if t ≤ 1748736000000 then 60 else 0)
  else none

/-- Reminder status values (shared/schema reminder status enum). -/
inductive RStatus where
  | PENDING
  | SENT
  | FAILED
  | SKIPPED
deriving DecidableEq

/-- Trial status values (shared/schema trial status enum). -/
inductive TStatus where
  | ACTIVE
  | CANCELED
deriving DecidableEq

/-- A row of the users table (only the columns the dispatch core reads). -/
structure UserRow where
  id : Nat
  email : String
  timezone : String
deriving DecidableEq

/-- A row of the trials table (only the columns the dispatch core reads). -/
structure TrialRow where
  id : Nat
  userId : Nat
  serviceName : String
  status : TStatus
  canceledAt : Option Int
deriving DecidableEq

/-- A row of the reminders table. -/
structure ReminderRow where
  id : Nat
  trialId : Nat
  userId : Nat
  remindAt : Int
  type : String
  status : RStatus
  sentAt : Option Int
  providerMessageId : Option String
  lastError : Option String
deriving DecidableEq

/-- The relational state the dispatch core operates on. -/
structure DB where
  users : List UserRow
  trials : List TrialRow
  reminders : List ReminderRow
deriving DecidableEq

/-- Per-row effect of the UPDATE of `claimAndSendReminder`
(src/server/storage.ts lines 157-163): rows matching
`id = reminderId AND status = 'PENDING'` get status SENT and sentAt set. -/
def claimUpdate (rid : Nat) (now : Int) (r : ReminderRow) : ReminderRow :=
  if r.id = rid ∧ r.status = RStatus.PENDING then
    { r with status := RStatus.SENT, sentAt := some now }
  else r

/-- Embedding of `claimAndSendReminder`: the conditional UPDATE plus the
`result.length > 0` check on the RETURNING rows. -/
def claimAndSendReminder (db : DB) (rid : Nat) (now : Int) : Bool × DB :=
  let affected :=
    db.reminders.filter (fun r => decide (r.id = rid ∧ r.status = RStatus.PENDING))
  (decide (0 < affected.length),
   { db with reminders := db.reminders.map (claimUpdate rid now) })

/-- Per-row effect of the UPDATE of `markReminderSent`
(src/server/storage.ts lines 165-174): rows matching `id = reminderId`
get status SENT, sentAt, the provider message id, and lastError cleared. -/
def markSentUpdate (rid : Nat) (now : Int) (pmid : Option String)
    (r : ReminderRow) : ReminderRow :=
  if r.id = rid then
    { r with status := RStatus.SENT, sentAt := some now,
             providerMessageId := pmid, lastError := none }
  else r

/-- Embedding of `markReminderSent`. -/
def markReminderSent (db : DB) (rid : Nat) (now : Int) (pmid : Option String) : DB :=
  { db with reminders := db.reminders.map (markSentUpdate rid now pmid) }

/-- Per-row effect of the UPDATE of `markReminderFailed`
(src/server/storage.ts lines 176-183): rows matching `id = reminderId`
get status FAILED and the error recorded in lastError. -/
def markFailedUpdate (rid : Nat) (err : String) (r : ReminderRow) : ReminderRow :=
  if r.id = rid then { r with status := RStatus.FAILED, lastError := some err }
  else r

/-- Embedding of `markReminderFailed`. -/
def markReminderFailed (db : DB) (rid : Nat) (err : String) : DB :=
  { db with reminders := db.reminders.map (markFailedUpdate rid err) }

/-- Per-row effect of the UPDATE of `skipRemindersByTrial`
(src/server/storage.ts lines 185-189): rows matching
`trialId = trialId AND status = 'PENDING'` get status SKIPPED. -/
def skipUpdate (tid : Nat) (r : ReminderRow) : ReminderRow :=
  if r.trialId = tid ∧ r.status = RStatus.PENDING then
    { r with status := RStatus.SKIPPED }
  else r

/-- Embedding of `skipRemindersByTrial`. -/
def skipRemindersByTrial (db : DB) (tid : Nat) : DB :=
  { db with reminders := db.reminders.map (skipUpdate tid) }

/-- Per-row effect of the UPDATE of `cancelTrial`
(src/server/storage.ts lines 122-128): rows matching
`id = trialId AND userId = userId` get status CANCELED and canceledAt set. -/
def cancelUpdate (tid uid : Nat) (now : Int) (t : TrialRow) : TrialRow :=
  if t.id = tid ∧ t.userId = uid then
    { t with status := TStatus.CANCELED, canceledAt := some now }
  else t

/-- Embedding of `cancelTrial`: the UPDATE plus the first RETURNING row. -/
def cancelTrial (db : DB) (tid uid : Nat) (now : Int) : Option TrialRow × DB :=
  let updated := db.trials.map (cancelUpdate tid uid now)
  ((updated.filter (fun t => decide (t.id = tid ∧ t.userId = uid))).head?,
   { db with trials := updated })

/-- A joined row returned by `getDueReminders`: the reminder together with
its trial and user. -/
structure DueRow where
  reminder : ReminderRow
  trial : TrialRow
  user : UserRow
deriving DecidableEq

/-- Embedding of `getDueReminders` (src/server/storage.ts lines 146-155):
reminders inner-joined to trials on `trialId = trials.id` and to users on
`userId = users.id`, filtered by reminder status PENDING, `remindAt ≤ now`
and trial status ACTIVE. -/
def getDueReminders (db : DB) (now : Int) : List DueRow :=
  ((db.reminders.flatMap fun r => db.trials.flatMap fun t => db.users.map fun u =>
      DueRow.mk r t u).filter fun x =>
    decide (x.reminder.trialId = x.trial.id ∧ x.reminder.userId = x.user.id
      ∧ x.reminder.status = RStatus.PENDING ∧ x.reminder.remindAt ≤ now
      ∧ x.trial.status = TStatus.ACTIVE))

/-- Result record of the email sender (src/server/email.ts,
`EmailSendResult`). -/
structure EmailSendResult where
  success : Bool
  messageId : Option String
  error : Option String
deriving DecidableEq

/-- The behaviour of a configured Resend client for one reminder email:
the final EmailSendResult the `resend.emails.send` call path produces
(success with an optional id, or failure with a reason). -/
def ResendClient : Type := TrialRow → UserRow → String → EmailSendResult

/-- Embedding of `sendReminderEmail` (src/server/email.ts lines 90-127):
with no configured client (RESEND_API_KEY absent, module-level `resend`
null) it logs and returns success with messageId "console-only"; with a
client it returns the client's outcome. -/
def sendReminderEmail (resend : Option ResendClient) (trial : TrialRow)
    (user : UserRow) (rtype : String) : EmailSendResult :=
  match resend with
  | none => { success := true, messageId := some "console-only", error := none }
  | some client => client trial user rtype

/-- A failure detail record of the sweep summary:
`{ reminderId, trialId, reason }`. -/
structure FailureRec where
  reminderId : Nat
  trialId : Nat
  reason : String
deriving DecidableEq

/-- The loop body of `processRemindersNow` (src/server/routes.ts lines
892-906 of the concatenated server source), recursing over the due rows and
threading the database; returns the final database and the running totals
(emailsAttempted, emailsSent, failedCount, failures) contributed by the
processed rows.  A row whose claim affects zero rows is skipped with no
contribution (`if (!claimed) continue`). -/
def dispatchLoop (resend : Option ResendClient) (now : Int) :
    List DueRow → DB → DB × Nat × Nat × Nat × List FailureRec
  | [], db => (db, 0, 0, 0, [])
  | row :: rest, db =>
    let c := claimAndSendReminder db row.reminder.id now
    if c.1 then
      let result := sendReminderEmail resend row.trial row.user row.reminder.type
      if result.success then
        let out := dispatchLoop resend now rest
          (markReminderSent c.2 row.reminder.id now result.messageId)
        (out.1, out.2.1 + 1, out.2.2.1 + 1, out.2.2.2.1, out.2.2.2.2)
      else
        let err := result.error.getD "Unknown error"
        let out := dispatchLoop resend now rest
          (markReminderFailed c.2 row.reminder.id err)
        (out.1, out.2.1 + 1, out.2.2.1, out.2.2.2.1 + 1,
         ⟨row.reminder.id, row.reminder.trialId, err⟩ :: out.2.2.2.2)
    else
      dispatchLoop resend now rest c.2

/-- The summary returned by `processRemindersNow`. -/
structure SweepSummary where
  remindersProcessedCount : Nat
  emailsAttemptedCount : Nat
  emailsSentCount : Nat
  failedCount : Nat
  failures : List FailureRec
deriving DecidableEq

/-- Embedding of `processRemindersNow` (src/server/routes.ts lines 884-915
of the concatenated server source): fetch the due candidates, run the
dispatch loop, and return the summary together with the final database. -/
def processRemindersNow (resend : Option ResendClient) (db : DB) (now : Int) :
    SweepSummary × DB :=
  let due := getDueReminders db now
  let out := dispatchLoop resend now due db
  ({ remindersProcessedCount := due.length,
     emailsAttemptedCount := out.2.1,
     emailsSentCount := out.2.2.1,
     failedCount := out.2.2.2.1,
     failures := out.2.2.2.2 }, out.1)

/-- A sequence of sweep invocations: each element carries the invocation
instant and the email-client configuration in force for that sweep. -/
def sweepSeq : DB → List (Int × Option ResendClient) → DB
  | db, [] => db
  | db, s :: rest => sweepSeq (processRemindersNow s.2 db s.1).2 rest

/-- Observer for the dispatch loop: the number of email attempts the loop
makes for the reminder id `rid` (an attempt happens exactly when the
conditional claim for a due row succeeds, matching the `emailsAttempted++`
site guarded by `if (!claimed) continue`). -/
def attemptsFor (rid : Nat) (resend : Option ResendClient) (now : Int) :
    List DueRow → DB → Nat
  | [], _ => 0
  | row :: rest, db =>
    let c := claimAndSendReminder db row.reminder.id now
    if c.1 then
      let result := sendReminderEmail resend row.trial row.user row.reminder.type
      let db2 :=
        if result.success then
          markReminderSent c.2 row.reminder.id now result.messageId
        else
          markReminderFailed c.2 row.reminder.id (result.error.getD "Unknown error")
      (if row.reminder.id = rid then 1 else 0) + attemptsFor rid resend now rest db2
    else
      attemptsFor rid resend now rest c.2

/-- Observer for a sequence of sweeps: the total number of email attempts
made for the reminder id `rid` across all sweeps of the sequence. -/
def sweepAttemptsFor (rid : Nat) : DB → List (Int × Option ResendClient) → Nat
  | _, [] => 0
  | db, s :: rest =>
    attemptsFor rid s.2 s.1 (getDueReminders db s.1) db
      + sweepAttemptsFor rid (processRemindersNow s.2 db s.1).2 rest

/-- No reminder row with the given id is PENDING. -/
def NoPendingFor (db : DB) (rid : Nat) : Prop :=
  ∀ r ∈ db.reminders, r.id = rid → r.status ≠ RStatus.PENDING

/-- Every reminder row with the given id is SENT. -/
def AllSentFor (db : DB) (i : Nat) : Prop :=
  ∀ r ∈ db.reminders, r.id = i → r.status = RStatus.SENT

/-- Some reminder row with the given id is PENDING. -/
def HasPendingFor (db : DB) (i : Nat) : Prop :=
  ∃ r ∈ db.reminders, r.id = i ∧ r.status = RStatus.PENDING

/-- A demo user row. -/
def demoUser : UserRow := ⟨0, "u@example.com", "UTC"⟩

/-- A demo active trial of the demo user. -/
def demoTrial : TrialRow := ⟨0, 0, "StreamCo", TStatus.ACTIVE, none⟩

/-- A demo PENDING reminder of the demo trial, due at instant 0. -/
def demoReminder : ReminderRow :=
  ⟨0, 0, 0, 0, "ONE_DAY", RStatus.PENDING, none, none, none⟩

/-- A one-user, one-trial, one-reminder database. -/
def demoDb : DB := ⟨[demoUser], [demoTrial], [demoReminder]⟩

/-- A Resend client whose every send fails with "rate limited". -/
def failClient : ResendClient := fun _ _ _ => ⟨false, none, some "rate limited"⟩

/-- claimUpdate keeps the row id. -/
theorem claimUpdate_id (rid : Nat) (now : Int) (r : ReminderRow) :
    (claimUpdate rid now r).id = r.id := by
  unfold claimUpdate
  split <;> rfl

/-- claimUpdate keeps the row trialId. -/
theorem claimUpdate_trialId (rid : Nat) (now : Int) (r : ReminderRow) :
    (claimUpdate rid now r).trialId = r.trialId := by
  unfold claimUpdate
  split <;> rfl

/-- A row claimUpdate leaves PENDING was untouched. -/
theorem claimUpdate_pending_fix (rid : Nat) (now : Int) (r : ReminderRow)
    (h : (claimUpdate rid now r).status = RStatus.PENDING) :
    claimUpdate rid now r = r := by
  unfold claimUpdate at h ⊢
  by_cases hc : r.id = rid ∧ r.status = RStatus.PENDING
  · rw [if_pos hc] at h
    exact RStatus.noConfusion h
  · rw [if_neg hc]

/-- claimUpdate leaves rows with a different id untouched. -/
theorem claimUpdate_eq_self_of_ne (rid : Nat) (now : Int) (r : ReminderRow)
    (h : r.id ≠ rid) : claimUpdate rid now r = r :=
  if_neg (fun hc => h hc.1)

/-- markSentUpdate keeps the row id. -/
theorem markSentUpdate_id (rid : Nat) (now : Int) (pmid : Option String)
    (r : ReminderRow) : (markSentUpdate rid now pmid r).id = r.id := by
  unfold markSentUpdate
  split <;> rfl

/-- markSentUpdate keeps the row trialId. -/
theorem markSentUpdate_trialId (rid : Nat) (now : Int) (pmid : Option String)
    (r : ReminderRow) : (markSentUpdate rid now pmid r).trialId = r.trialId := by
  unfold markSentUpdate
  split <;> rfl

/-- A row markSentUpdate leaves PENDING was untouched. -/
theorem markSentUpdate_pending_fix (rid : Nat) (now : Int) (pmid : Option String)
    (r : ReminderRow) (h : (markSentUpdate rid now pmid r).status = RStatus.PENDING) :
    markSentUpdate rid now pmid r = r := by
  unfold markSentUpdate at h ⊢
  by_cases hc : r.id = rid
  · rw [if_pos hc] at h
    exact RStatus.noConfusion h
  · rw [if_neg hc]

/-- markSentUpdate leaves rows with a different id untouched. -/
theorem markSentUpdate_eq_self_of_ne (rid : Nat) (now : Int) (pmid : Option String)
    (r : ReminderRow) (h : r.id ≠ rid) : markSentUpdate rid now pmid r = r :=
  if_neg h

/-- markFailedUpdate keeps the row id. -/
theorem markFailedUpdate_id (rid : Nat) (err : String) (r : ReminderRow) :
    (markFailedUpdate rid err r).id = r.id := by
  unfold markFailedUpdate
  split <;> rfl

/-- markFailedUpdate keeps the row trialId. -/
theorem markFailedUpdate_trialId (rid : Nat) (err : String) (r : ReminderRow) :
    (markFailedUpdate rid err r).trialId = r.trialId := by
  unfold markFailedUpdate
  split <;> rfl

/-- A row markFailedUpdate leaves PENDING was untouched. -/
theorem markFailedUpdate_pending_fix (rid : Nat) (err : String) (r : ReminderRow)
    (h : (markFailedUpdate rid err r).status = RStatus.PENDING) :
    markFailedUpdate rid err r = r := by
  unfold markFailedUpdate at h ⊢
  by_cases hc : r.id = rid
  · rw [if_pos hc] at h
    exact RStatus.noConfusion h
  · rw [if_neg hc]

/-- markFailedUpdate leaves rows with a different id untouched. -/
theorem markFailedUpdate_eq_self_of_ne (rid : Nat) (err : String)
    (r : ReminderRow) (h : r.id ≠ rid) : markFailedUpdate rid err r = r :=
  if_neg h

/-- skipUpdate keeps the row id. -/
theorem skipUpdate_id (tid : Nat) (r : ReminderRow) :
    (skipUpdate tid r).id = r.id := by
  unfold skipUpdate
  split <;> rfl

/-- skipUpdate keeps the row trialId. -/
theorem skipUpdate_trialId (tid : Nat) (r : ReminderRow) :
    (skipUpdate tid r).trialId = r.trialId := by
  unfold skipUpdate
  split <;> rfl

/-- A row skipUpdate leaves PENDING was untouched. -/
theorem skipUpdate_pending_fix (tid : Nat) (r : ReminderRow)
    (h : (skipUpdate tid r).status = RStatus.PENDING) :
    skipUpdate tid r = r := by
  unfold skipUpdate at h ⊢
  by_cases hc : r.trialId = tid ∧ r.status = RStatus.PENDING
  · rw [if_pos hc] at h
    exact RStatus.noConfusion h
  · rw [if_neg hc]

/-- The claim flag of claimAndSendReminder is true exactly when some row
with the given id is PENDING. -/
theorem claim_fst_iff (db : DB) (rid : Nat) (now : Int) :
    (claimAndSendReminder db rid now).1 = true
      ↔ ∃ r ∈ db.reminders, r.id = rid ∧ r.status = RStatus.PENDING := by
  unfold claimAndSendReminder
  simp only [decide_eq_true_eq, List.length_pos_iff_exists_mem]
  constructor
  · rintro ⟨r, hr⟩
    rw [List.mem_filter, decide_eq_true_eq] at hr
    exact ⟨r, hr.1, hr.2⟩
  · rintro ⟨r, hr, hcond⟩
    exact ⟨r, List.mem_filter.2 ⟨hr, by simpa using hcond⟩⟩

/-- A map over rows that fixes every row it leaves PENDING preserves the
absence of PENDING rows with a given id (ids must also be preserved). -/
theorem noPending_map (j : Nat) (l : List ReminderRow) (f : ReminderRow → ReminderRow)
    (hfix : ∀ r, (f r).status = RStatus.PENDING → f r = r)
    (h : ∀ r ∈ l, r.id = j → r.status ≠ RStatus.PENDING) :
    ∀ r ∈ l.map f, r.id = j → r.status ≠ RStatus.PENDING := by
  intro r' hr' hid hst
  obtain ⟨r, hr, rfl⟩ := List.mem_map.1 hr'
  have hfr := hfix r hst
  rw [hfr] at hid hst
  exact h r hr hid hst

/-- claimAndSendReminder (for any target id) preserves NoPendingFor. -/
theorem noPendingFor_claim (db : DB) (rid : Nat) (now : Int) (j : Nat)
    (h : NoPendingFor db j) :
    NoPendingFor (claimAndSendReminder db rid now).2 j :=
  noPending_map j db.reminders (claimUpdate rid now)
    (claimUpdate_pending_fix rid now) h

/-- markReminderSent preserves NoPendingFor. -/
theorem noPendingFor_markSent (db : DB) (rid : Nat) (now : Int)
    (pmid : Option String) (j : Nat) (h : NoPendingFor db j) :
    NoPendingFor (markReminderSent db rid now pmid) j :=
  noPending_map j db.reminders (markSentUpdate rid now pmid)
    (markSentUpdate_pending_fix rid now pmid) h

/-- markReminderFailed preserves NoPendingFor. -/
theorem noPendingFor_markFailed (db : DB) (rid : Nat) (err : String)
    (j : Nat) (h : NoPendingFor db j) :
    NoPendingFor (markReminderFailed db rid err) j :=
  noPending_map j db.reminders (markFailedUpdate rid err)
    (markFailedUpdate_pending_fix rid err) h

/-- After claimAndSendReminder targets an id, no row with that id is
PENDING any more: PENDING matches were moved to SENT and non-PENDING rows
stay non-PENDING. -/
theorem noPendingFor_after_claim (db : DB) (rid : Nat) (now : Int) :
    NoPendingFor (claimAndSendReminder db rid now).2 rid := by
  intro r' hr' hid hst
  obtain ⟨r, _, rfl⟩ := List.mem_map.1 hr'
  unfold claimUpdate at hid hst
  by_cases hc : r.id = rid ∧ r.status = RStatus.PENDING
  · rw [if_pos hc] at hst
    exact RStatus.noConfusion hst
  · rw [if_neg hc] at hid hst
    exact hc ⟨hid, hst⟩

/-- With no PENDING row for the target id, the claim flag is false. -/
theorem claim_fst_false_of_noPending (db : DB) (rid : Nat) (now : Int)
    (h : NoPendingFor db rid) : (claimAndSendReminder db rid now).1 = false := by
  by_contra hne
  have : (claimAndSendReminder db rid now).1 = true := by
    cases hb : (claimAndSendReminder db rid now).1
    · exact absurd hb hne
    · rfl
  obtain ⟨r, hr, hid, hst⟩ := (claim_fst_iff db rid now).1 this
  exact h r hr hid hst

/-- With no PENDING row for the target id, claimAndSendReminder leaves the
database unchanged (the UPDATE affects zero rows). -/
theorem claim_snd_id_of_noPending (db : DB) (rid : Nat) (now : Int)
    (h : NoPendingFor db rid) : (claimAndSendReminder db rid now).2 = db := by
  show ({ db with reminders := db.reminders.map (claimUpdate rid now) } : DB) = db
  have hmap : db.reminders.map (claimUpdate rid now) = db.reminders := by
    have hcongr : db.reminders.map (claimUpdate rid now) = db.reminders.map id :=
      List.map_congr_left (fun r hr => by
        show claimUpdate rid now r = r
        exact if_neg (fun hc => h r hr hc.1 hc.2))
    rw [hcongr, List.map_id]
  rw [hmap]

/-- The dispatch loop never changes the trials table. -/
theorem dispatchLoop_trials (resend : Option ResendClient) (now : Int)
    (rows : List DueRow) (db : DB) :
    (dispatchLoop resend now rows db).1.trials = db.trials := by
  induction rows generalizing db with
  | nil => rfl
  | cons row rest ih =>
    unfold dispatchLoop
    simp only []
    split
    · split
      · exact ih _
      · exact ih _
    · exact ih _

/-- The dispatch loop never changes the users table. -/
theorem dispatchLoop_users (resend : Option ResendClient) (now : Int)
    (rows : List DueRow) (db : DB) :
    (dispatchLoop resend now rows db).1.users = db.users := by
  induction rows generalizing db with
  | nil => rfl
  | cons row rest ih =>
    unfold dispatchLoop
    simp only []
    split
    · split
      · exact ih _
      · exact ih _
    · exact ih _

/-- Mapping an id-preserving row update preserves the list of reminder ids. -/
theorem map_ids_of_id_preserving (l : List ReminderRow)
    (f : ReminderRow → ReminderRow) (hf : ∀ r, (f r).id = r.id) :
    (l.map f).map (fun r => r.id) = l.map (fun r => r.id) := by
  rw [List.map_map]
  exact List.map_congr_left (fun r _ => hf r)

/-- Mapping an id- and trialId-preserving row update preserves the list of
(id, trialId) pairs. -/
theorem map_pairs_of_preserving (l : List ReminderRow)
    (f : ReminderRow → ReminderRow) (hf : ∀ r, (f r).id = r.id)
    (ht : ∀ r, (f r).trialId = r.trialId) :
    (l.map f).map (fun r => (r.id, r.trialId)) = l.map (fun r => (r.id, r.trialId)) := by
  rw [List.map_map]
  exact List.map_congr_left (fun r _ => by
    show ((f r).id, (f r).trialId) = (r.id, r.trialId)
    rw [hf r, ht r])

/-- The dispatch loop preserves the list of (id, trialId) pairs of the
reminders table: it only ever rewrites status/metadata columns. -/
theorem dispatchLoop_pairs (resend : Option ResendClient) (now : Int)
    (rows : List DueRow) (db : DB) :
    (dispatchLoop resend now rows db).1.reminders.map (fun r => (r.id, r.trialId))
      = db.reminders.map (fun r => (r.id, r.trialId)) := by
  induction rows generalizing db with
  | nil => rfl
  | cons row rest ih =>
    unfold dispatchLoop
    simp only []
    split
    · split
      · rw [ih]
        show ((db.reminders.map (claimUpdate row.reminder.id now)).map
            (markSentUpdate row.reminder.id now _)).map (fun r => (r.id, r.trialId))
          = db.reminders.map (fun r => (r.id, r.trialId))
        rw [map_pairs_of_preserving _ _ (markSentUpdate_id _ _ _)
              (markSentUpdate_trialId _ _ _),
            map_pairs_of_preserving _ _ (claimUpdate_id _ _) (claimUpdate_trialId _ _)]
      · rw [ih]
        show ((db.reminders.map (claimUpdate row.reminder.id now)).map
            (markFailedUpdate row.reminder.id _)).map (fun r => (r.id, r.trialId))
          = db.reminders.map (fun r => (r.id, r.trialId))
        rw [map_pairs_of_preserving _ _ (markFailedUpdate_id _ _)
              (markFailedUpdate_trialId _ _),
            map_pairs_of_preserving _ _ (claimUpdate_id _ _) (claimUpdate_trialId _ _)]
    · rw [ih]
      show (db.reminders.map (claimUpdate row.reminder.id now)).map
          (fun r => (r.id, r.trialId)) = db.reminders.map (fun r => (r.id, r.trialId))
      rw [map_pairs_of_preserving _ _ (claimUpdate_id _ _) (claimUpdate_trialId _ _)]

/-- The dispatch loop preserves NoPendingFor: it never writes PENDING. -/
theorem noPendingFor_dispatchLoop (resend : Option ResendClient) (now : Int)
    (rows : List DueRow) (db : DB) (j : Nat) (h : NoPendingFor db j) :
    NoPendingFor (dispatchLoop resend now rows db).1 j := by
  induction rows generalizing db with
  | nil => exact h
  | cons row rest ih =>
    unfold dispatchLoop
    simp only []
    split
    · split
      · exact ih _ (noPendingFor_markSent _ _ _ _ _ (noPendingFor_claim _ _ _ _ h))
      · exact ih _ (noPendingFor_markFailed _ _ _ _ (noPendingFor_claim _ _ _ _ h))
    · exact ih _ (noPendingFor_claim _ _ _ _ h)

/-- With no PENDING row for rid, the dispatch loop attempts no email for
rid: every claim targeting rid affects zero rows and is skipped. -/
theorem attemptsFor_eq_zero_of_noPending (rid : Nat) (resend : Option ResendClient)
    (now : Int) (rows : List DueRow) (db : DB) (h : NoPendingFor db rid) :
    attemptsFor rid resend now rows db = 0 := by
  induction rows generalizing db with
  | nil => rfl
  | cons row rest ih =>
    unfold attemptsFor
    simp only []
    split
    · rename_i hclaim
      by_cases hid : row.reminder.id = rid
      · exfalso
        rw [hid] at hclaim
        rw [claim_fst_false_of_noPending db rid now h] at hclaim
        exact Bool.noConfusion hclaim
      · rw [if_neg hid]
        have h2 : NoPendingFor
            (if (sendReminderEmail resend row.trial row.user row.reminder.type).success
              then markReminderSent (claimAndSendReminder db row.reminder.id now).2
                    row.reminder.id now
                    (sendReminderEmail resend row.trial row.user row.reminder.type).messageId
              else markReminderFailed (claimAndSendReminder db row.reminder.id now).2
                    row.reminder.id
                    ((sendReminderEmail resend row.trial row.user
                        row.reminder.type).error.getD "Unknown error")) rid := by
          split
          · exact noPendingFor_markSent _ _ _ _ _ (noPendingFor_claim _ _ _ _ h)
          · exact noPendingFor_markFailed _ _ _ _ (noPendingFor_claim _ _ _ _ h)
        rw [ih _ h2]
    · exact ih _ (noPendingFor_claim _ _ _ _ h)

/-- The dispatch loop attempts at most one email for any given reminder id:
the first successful claim moves every row with that id out of PENDING, so
any later claim for it affects zero rows. -/
theorem attemptsFor_le_one (rid : Nat) (resend : Option ResendClient)
    (now : Int) (rows : List DueRow) (db : DB) :
    attemptsFor rid resend now rows db ≤ 1 := by
  induction rows generalizing db with
  | nil => exact Nat.zero_le 1
  | cons row rest ih =>
    unfold attemptsFor
    simp only []
    split
    · by_cases hid : row.reminder.id = rid
      · rw [if_pos hid]
        have h1 : NoPendingFor (claimAndSendReminder db row.reminder.id now).2 rid := by
          rw [hid]
          exact noPendingFor_after_claim db rid now
        have h2 : NoPendingFor
            (if (sendReminderEmail resend row.trial row.user row.reminder.type).success
              then markReminderSent (claimAndSendReminder db row.reminder.id now).2
                    row.reminder.id now
                    (sendReminderEmail resend row.trial row.user row.reminder.type).messageId
              else markReminderFailed (claimAndSendReminder db row.reminder.id now).2
                    row.reminder.id
                    ((sendReminderEmail resend row.trial row.user
                        row.reminder.type).error.getD "Unknown error")) rid := by
          split
          · exact noPendingFor_markSent _ _ _ _ _ h1
          · exact noPendingFor_markFailed _ _ _ _ h1
        rw [attemptsFor_eq_zero_of_noPending _ _ _ _ _ h2]
      · rw [if_neg hid]
        have := ih (if (sendReminderEmail resend row.trial row.user row.reminder.type).success
              then markReminderSent (claimAndSendReminder db row.reminder.id now).2
                    row.reminder.id now
                    (sendReminderEmail resend row.trial row.user row.reminder.type).messageId
              else markReminderFailed (claimAndSendReminder db row.reminder.id now).2
                    row.reminder.id
                    ((sendReminderEmail resend row.trial row.user
                        row.reminder.type).error.getD "Unknown error"))
        omega
    · exact ih _

/-- If the dispatch loop attempted an email for rid, the database it leaves
behind has no PENDING row with id rid. -/
theorem noPendingFor_loop_of_attempts_pos (rid : Nat) (resend : Option ResendClient)
    (now : Int) (rows : List DueRow) (db : DB)
    (h : 1 ≤ attemptsFor rid resend now rows db) :
    NoPendingFor (dispatchLoop resend now rows db).1 rid := by
  induction rows generalizing db with
  | nil => exact absurd h (by simp [attemptsFor])
  | cons row rest ih =>
    unfold attemptsFor at h
    unfold dispatchLoop
    simp only [] at h ⊢
    split at h
    · rename_i hclaim
      rw [if_pos hclaim]
      by_cases hid : row.reminder.id = rid
      · have h1 : NoPendingFor (claimAndSendReminder db row.reminder.id now).2 rid := by
          rw [hid]
          exact noPendingFor_after_claim db rid now
        split
        · exact noPendingFor_dispatchLoop _ _ _ _ _
            (noPendingFor_markSent _ _ _ _ _ h1)
        · exact noPendingFor_dispatchLoop _ _ _ _ _
            (noPendingFor_markFailed _ _ _ _ h1)
      · rw [if_neg hid] at h
        split
        · rename_i hsucc
          rw [if_pos hsucc] at h
          exact ih _ (by omega)
        · rename_i hsucc
          rw [if_neg hsucc] at h
          exact ih _ (by omega)
    · rename_i hclaim
      rw [if_neg hclaim]
      exact ih _ h

/-- With no PENDING row for rid, no sweep of a sequence ever attempts an
email for rid. -/
theorem sweepAttemptsFor_zero_of_noPending (rid : Nat) (db : DB)
    (sweeps : List (Int × Option ResendClient)) (h : NoPendingFor db rid) :
    sweepAttemptsFor rid db sweeps = 0 := by
  induction sweeps generalizing db with
  | nil => rfl
  | cons s rest ih =>
    unfold sweepAttemptsFor
    have h2 : NoPendingFor (processRemindersNow s.2 db s.1).2 rid :=
      noPendingFor_dispatchLoop s.2 s.1 (getDueReminders db s.1) db rid h
    rw [attemptsFor_eq_zero_of_noPending _ _ _ _ _ h, ih _ h2]

/-- Across any sequence of sweeps, at most one email attempt is ever made
for a given reminder id. -/
theorem sweepAttemptsFor_le_one (rid : Nat) (db : DB)
    (sweeps : List (Int × Option ResendClient)) :
    sweepAttemptsFor rid db sweeps ≤ 1 := by
  induction sweeps generalizing db with
  | nil => exact Nat.zero_le 1
  | cons s rest ih =>
    unfold sweepAttemptsFor
    rcases Nat.eq_zero_or_pos (attemptsFor rid s.2 s.1 (getDueReminders db s.1) db)
      with h0 | hpos
    · rw [h0]
      simpa using ih _
    · have h1 := attemptsFor_le_one rid s.2 s.1 (getDueReminders db s.1) db
      have h2 : NoPendingFor (processRemindersNow s.2 db s.1).2 rid :=
        noPendingFor_loop_of_attempts_pos rid s.2 s.1 (getDueReminders db s.1) db hpos
      rw [sweepAttemptsFor_zero_of_noPending _ _ _ h2]
      omega

/-- The running totals of the dispatch loop satisfy the summary arithmetic:
attempts split into successes and failures, one failure record per failure,
and at most one attempt per processed row. -/
theorem dispatchLoop_counts (resend : Option ResendClient) (now : Int)
    (rows : List DueRow) (db : DB) :
    (dispatchLoop resend now rows db).2.1
        = (dispatchLoop resend now rows db).2.2.1
          + (dispatchLoop resend now rows db).2.2.2.1
    ∧ (dispatchLoop resend now rows db).2.2.2.2.length
        = (dispatchLoop resend now rows db).2.2.2.1
    ∧ (dispatchLoop resend now rows db).2.1 ≤ rows.length := by
  induction rows generalizing db with
  | nil => exact ⟨rfl, rfl, Nat.le_refl 0⟩
  | cons row rest ih =>
    unfold dispatchLoop
    simp only []
    split
    · split
      · obtain ⟨h1, h2, h3⟩ := ih (markReminderSent
          (claimAndSendReminder db row.reminder.id now).2 row.reminder.id now
          (sendReminderEmail resend row.trial row.user row.reminder.type).messageId)
        dsimp only
        simp only [List.length_cons]
        exact ⟨by omega, by omega, by omega⟩
      · obtain ⟨h1, h2, h3⟩ := ih (markReminderFailed
          (claimAndSendReminder db row.reminder.id now).2 row.reminder.id
          ((sendReminderEmail resend row.trial row.user
              row.reminder.type).error.getD "Unknown error"))
        dsimp only
        simp only [List.length_cons]
        exact ⟨by omega, by omega, by omega⟩
    · obtain ⟨h1, h2, h3⟩ := ih (claimAndSendReminder db row.reminder.id now).2
      simp only [List.length_cons]
      exact ⟨h1, h2, by omega⟩

/-- Mapping a row update that fixes every row it leaves PENDING cannot
introduce new PENDING rows: any PENDING row of the image is an untouched
original row. -/
theorem pending_mem_map (l : List ReminderRow) (f : ReminderRow → ReminderRow)
    (hfix : ∀ r, (f r).status = RStatus.PENDING → f r = r) :
    ∀ r ∈ l.map f, r.status = RStatus.PENDING → r ∈ l := by
  intro r' hr' hst
  obtain ⟨r, hr, rfl⟩ := List.mem_map.1 hr'
  rw [hfix r hst]
  exact hr

/-- Any row the dispatch loop leaves PENDING is an untouched original row. -/
theorem pending_mem_dispatchLoop (resend : Option ResendClient) (now : Int)
    (rows : List DueRow) (db : DB) :
    ∀ r ∈ (dispatchLoop resend now rows db).1.reminders,
      r.status = RStatus.PENDING → r ∈ db.reminders := by
  induction rows generalizing db with
  | nil => exact fun r hr _ => hr
  | cons row rest ih =>
    intro r hr hst
    unfold dispatchLoop at hr
    simp only [] at hr
    split at hr
    · split at hr
      · have h1 := ih _ r hr hst
        have h2 := pending_mem_map _ (markSentUpdate row.reminder.id now _)
          (markSentUpdate_pending_fix row.reminder.id now _) r h1 hst
        exact pending_mem_map _ (claimUpdate row.reminder.id now)
          (claimUpdate_pending_fix row.reminder.id now) r h2 hst
      · have h1 := ih _ r hr hst
        have h2 := pending_mem_map _ (markFailedUpdate row.reminder.id _)
          (markFailedUpdate_pending_fix row.reminder.id _) r h1 hst
        exact pending_mem_map _ (claimUpdate row.reminder.id now)
          (claimUpdate_pending_fix row.reminder.id now) r h2 hst
    · have h1 := ih _ r hr hst
      exact pending_mem_map _ (claimUpdate row.reminder.id now)
        (claimUpdate_pending_fix row.reminder.id now) r h1 hst

/-- Any row a sequence of sweeps leaves PENDING is an untouched original
row: PENDING is never re-entered. -/
theorem pending_mem_sweepSeq (db : DB) (sweeps : List (Int × Option ResendClient)) :
    ∀ r ∈ (sweepSeq db sweeps).reminders,
      r.status = RStatus.PENDING → r ∈ db.reminders := by
  induction sweeps generalizing db with
  | nil => exact fun r hr _ => hr
  | cons s rest ih =>
    intro r hr hst
    have h1 := ih (processRemindersNow s.2 db s.1).2 r hr hst
    exact pending_mem_dispatchLoop s.2 s.1 (getDueReminders db s.1) db r h1 hst

/-- Decomposition of membership in getDueReminders: the joined row comes
from the three tables and satisfies all join and filter conditions. -/
theorem mem_getDueReminders (db : DB) (now : Int) (x : DueRow)
    (hx : x ∈ getDueReminders db now) :
    x.reminder ∈ db.reminders ∧ x.trial ∈ db.trials ∧ x.user ∈ db.users
    ∧ x.reminder.trialId = x.trial.id ∧ x.reminder.userId = x.user.id
    ∧ x.reminder.status = RStatus.PENDING ∧ x.reminder.remindAt ≤ now
    ∧ x.trial.status = TStatus.ACTIVE := by
  unfold getDueReminders at hx
  rw [List.mem_filter] at hx
  obtain ⟨hmem, hcond⟩ := hx
  rw [decide_eq_true_eq] at hcond
  simp only [List.mem_flatMap, List.mem_map] at hmem
  obtain ⟨r, hr, t, ht, u, hu, hmk⟩ := hmem
  subst hmk
  exact ⟨hr, ht, hu, hcond.1, hcond.2.1, hcond.2.2.1, hcond.2.2.2.1, hcond.2.2.2.2⟩

/-- Every plan entry produced by computeReminders survives the safety-margin
filter, so its remindAt is strictly after now + minFutureMs. -/
theorem remindAt_gt_of_mem_computeReminders (tzdb : Tzdb) (endDate : CivilDate)
    (now : Int) (timezone : String) (p : ReminderPlan)
    (hp : p ∈ computeReminders tzdb endDate now timezone) :
    now + minFutureMs < p.remindAt := by
  unfold computeReminders at hp
  simp only [] at hp
  split at hp
  · simp at hp
  · split at hp <;>
    · simp only [List.mem_map, List.mem_filter, decide_eq_true_eq] at hp
      obtain ⟨o, ⟨_, hcond⟩, rfl⟩ := hp
      exact hcond

/-- When the resolved end-of-day instant is at or before now, the
timeLeft guard of computeReminders returns the empty plan. -/
theorem computeReminders_eq_nil_of_past (tzdb : Tzdb) (endDate : CivilDate)
    (now : Int) (timezone : String)
    (h : civilMs endDate + 86399000 - getTimezoneOffsetMs tzdb timezone now ≤ now) :
    computeReminders tzdb endDate now timezone = [] := by
  unfold computeReminders
  rw [if_pos (by omega)]

/-- C4, counterexample.  The claim says the plan's end instant depends on the
zone's offset at the resolved end date and on no other instant.  The zones
"Etc/Zero" and "Springward" of demoTzdb report the same offset (zero) at the
UTC end-of-day anchor 2025-06-10T23:59:59Z = 1749599999000 — indeed
"Springward" reports zero at every instant after 2025-06-01T00:00:00Z, so at
every instant of the civil end day — yet computeReminders returns different
plans for them at now = 2025-06-01T00:00:00Z = 1748736000000, because the
code evaluates getTimezoneOffsetMs at now, where the zones differ. -/
theorem C4_counterexample :
    ((demoTzdb "Etc/Zero").map (fun ofs => ofs 1749599999000) = some 0
      ∧ (demoTzdb "Springward").map (fun ofs => ofs 1749599999000) = some 0)
    ∧ computeReminders demoTzdb ⟨2025, 6, 10⟩ 1748736000000 "Etc/Zero"
      ≠ computeReminders demoTzdb ⟨2025, 6, 10⟩ 1748736000000 "Springward" := by
  refine ⟨⟨rfl, rfl⟩, by decide⟩

/-- C4, amended: computeReminders resolves the civil endDate to an end-of-day
instant by applying the time-zone offset that getTimezoneOffsetMs reports at
the reference instant `now` (the moment of planning), not at the end date;
hence for every (endDate, now), two zone names for which the reported offset
at `now` agrees yield identical plans. -/
theorem C4_amended_offset_at_now (tzdb : Tzdb) (endDate : CivilDate) (now : Int)
    (z1 z2 : String)
    (h : getTimezoneOffsetMs tzdb z1 now = getTimezoneOffsetMs tzdb z2 now) :
    computeReminders tzdb endDate now z1 = computeReminders tzdb endDate now z2 := by
  unfold computeReminders
  rw [h]

/-- C4, witness for the amended theorem at a concrete input: "UTC" and
"Etc/Zero" report equal offsets at now, so their plans coincide. -/
theorem C4_amended_offset_at_now_witness :
    computeReminders demoTzdb ⟨2025, 6, 10⟩ 1748736000000 "UTC"
      = computeReminders demoTzdb ⟨2025, 6, 10⟩ 1748736000000 "Etc/Zero" :=
  C4_amended_offset_at_now demoTzdb ⟨2025, 6, 10⟩ 1748736000000 "UTC" "Etc/Zero"
    (by decide)

/-- C5: every entry of the plan returned by computeReminders has remindAt
strictly after now + minFutureMs (the 2-minute safety margin), and whenever
the resolved end-of-day instant is at or before now the plan is empty. -/
theorem C5_safety_margin (tzdb : Tzdb) (endDate : CivilDate) (now : Int)
    (timezone : String) :
    (∀ p ∈ computeReminders tzdb endDate now timezone,
      now + minFutureMs < p.remindAt)
    ∧ (civilMs endDate + 86399000 - getTimezoneOffsetMs tzdb timezone now ≤ now →
        computeReminders tzdb endDate now timezone = []) :=
  ⟨fun p hp => remindAt_gt_of_mem_computeReminders tzdb endDate now timezone p hp,
   fun h => computeReminders_eq_nil_of_past tzdb endDate now timezone h⟩

/-- C5, witness: at now = 2025-06-01T00:00:00Z, the THREE_DAYS entry of the
Scenario-A plan is past the safety margin, and an endDate of 2025-05-01
(already elapsed, Scenario C) yields the empty plan. -/
theorem C5_safety_margin_witness :
    (1748736000000 : Int) + minFutureMs < 1749340799000
    ∧ computeReminders demoTzdb ⟨2025, 5, 1⟩ 1748736000000 "UTC" = [] :=
  ⟨(C5_safety_margin demoTzdb ⟨2025, 6, 10⟩ 1748736000000 "UTC").1
      ⟨1749340799000, "THREE_DAYS"⟩ (by decide),
   (C5_safety_margin demoTzdb ⟨2025, 5, 1⟩ 1748736000000 "UTC").2 (by decide)⟩

/-- C6, counterexample.  With endDate 2025-06-10 and timezone "UTC" (end
instant 1749599999000), now1 = 1749340739000 leaves 72 h + 1 min; the far
tier applies but its 72-hour entry falls inside the 2-minute safety margin,
so the plan has exactly 1 entry.  At the later now2 = 1749344399000
(71 h left, the tier below) the plan has 2 entries: the count increased as
timeLeft shrank across the 72 h policy-tier boundary, refuting the claimed
non-increasing behaviour. -/
theorem C6_counterexample :
    ((1749340739000 : Int) ≤ 1749344399000
      ∧ (1749344399000 : Int) <
          civilMs ⟨2025, 6, 10⟩ + 86399000
            - getTimezoneOffsetMs demoTzdb "UTC" 1749344399000)
    ∧ (computeReminders demoTzdb ⟨2025, 6, 10⟩ 1749340739000 "UTC").length = 1
    ∧ (computeReminders demoTzdb ⟨2025, 6, 10⟩ 1749344399000 "UTC").length = 2 := by
  decide

/-- C6, amended: for a fixed endDate and a zone whose reported offset is the
same at both instants, the plan count is non-increasing as timeLeft shrinks
as long as both instants select the same policy tier; crossing a tier
boundary can increase the count (see the counterexample), because the new
tier's entries escape the safety margin while the old tier's largest offset
was suppressed by it. -/
theorem C6_amended_within_tier (tzdb : Tzdb) (endDate : CivilDate)
    (now1 now2 : Int) (z : String)
    (hofs : getTimezoneOffsetMs tzdb z now1 = getTimezoneOffsetMs tzdb z now2)
    (h12 : now1 ≤ now2)
    (hpos : 0 < civilMs endDate + 86399000 - getTimezoneOffsetMs tzdb z now2 - now2)
    (htier24 :
      civilMs endDate + 86399000 - getTimezoneOffsetMs tzdb z now1 - now1
          < 24 * 3600000
        ↔ civilMs endDate + 86399000 - getTimezoneOffsetMs tzdb z now2 - now2
          < 24 * 3600000)
    (htier72 :
      civilMs endDate + 86399000 - getTimezoneOffsetMs tzdb z now1 - now1
          < 72 * 3600000
        ↔ civilMs endDate + 86399000 - getTimezoneOffsetMs tzdb z now2 - now2
          < 72 * 3600000) :
    (computeReminders tzdb endDate now2 z).length
      ≤ (computeReminders tzdb endDate now1 z).length := by
  unfold computeReminders
  rw [hofs] at htier24 htier72 ⊢
  have hpos2 : ¬ (civilMs endDate + 86399000 - getTimezoneOffsetMs tzdb z now2 - now2 ≤ 0) := by
    omega
  have hpos1 : ¬ (civilMs endDate + 86399000 - getTimezoneOffsetMs tzdb z now2 - now1 ≤ 0) := by
    omega
  rw [if_neg hpos2, if_neg hpos1]
  simp only [List.length_map]
  have hmono : ∀ L : List (Int × String),
      (L.filter (fun o =>
          decide (civilMs endDate + 86399000 - getTimezoneOffsetMs tzdb z now2
            - o.1 * 3600000 > now2 + minFutureMs))).length
        ≤ (L.filter (fun o =>
          decide (civilMs endDate + 86399000 - getTimezoneOffsetMs tzdb z now2
            - o.1 * 3600000 > now1 + minFutureMs))).length := by
    intro L
    refine List.Sublist.length_le (List.monotone_filter_right L ?_)
    intro a ha
    simp only [decide_eq_true_eq] at ha ⊢
    omega
  by_cases h24 :
    civilMs endDate + 86399000 - getTimezoneOffsetMs tzdb z now2 - now2 < 24 * 3600000
  · rw [if_pos h24, if_pos (htier24.mpr h24)]
    exact hmono _
  · rw [if_neg h24, if_neg (fun h => h24 (htier24.mp h))]
    by_cases h72 :
      civilMs endDate + 86399000 - getTimezoneOffsetMs tzdb z now2 - now2 < 72 * 3600000
    · rw [if_pos h72, if_pos (htier72.mpr h72)]
      exact hmono _
    · rw [if_neg h72, if_neg (fun h => h72 (htier72.mp h))]
      exact hmono _

/-- C6, witness for the amended theorem: moving now from 72 h + 30 min
before the end to 72 h + 10 min before the end stays inside the far tier
and the count does not increase. -/
theorem C6_amended_within_tier_witness :
    (computeReminders demoTzdb ⟨2025, 6, 10⟩ 1749339599000 "UTC").length
      ≤ (computeReminders demoTzdb ⟨2025, 6, 10⟩ 1749338399000 "UTC").length :=
  C6_amended_within_tier demoTzdb ⟨2025, 6, 10⟩ 1749338399000 1749339599000 "UTC"
    (by decide) (by decide) (by decide) (by decide) (by decide)

/-- C7: Scenario A.  For endDate 2025-06-10, now = 2025-06-01T00:00:00Z
(epoch ms 1748736000000) and timezone "UTC", computeReminders returns
exactly two entries in ascending remindAt order: 2025-06-07T23:59:59Z
(1749340799000, 72 h before the end instant 1749599999000) labelled
THREE_DAYS, then 2025-06-09T23:59:59Z (1749513599000, 24 h before)
labelled ONE_DAY. -/
theorem C7_scenario_a :
    computeReminders demoTzdb ⟨2025, 6, 10⟩ 1748736000000 "UTC"
      = [⟨1749340799000, "THREE_DAYS"⟩, ⟨1749513599000, "ONE_DAY"⟩]
    ∧ (1749340799000 : Int) < 1749513599000 := by
  exact ⟨by decide, by decide⟩

/-- C8: for every reference instant, an unresolvable zone name makes
getTimezoneOffsetMs return 0 (the catch branch), and computeReminders with
such a name returns the same plan as with "UTC", provided tzdb resolves
"UTC" to the constant-zero offset function (which models the real
Intl behaviour for "UTC"). -/
theorem C8_invalid_timezone (tzdb : Tzdb) (endDate : CivilDate)
    (now ref : Int) (z : String)
    (hz : tzdb z = none) (hutc : tzdb "UTC" = some (fun _ => 0)) :
    getTimezoneOffsetMs tzdb z ref = 0
    ∧ computeReminders tzdb endDate now z
        = computeReminders tzdb endDate now "UTC" := by
  have h1 : ∀ r : Int, getTimezoneOffsetMs tzdb z r = 0 := by
    intro r
    unfold getTimezoneOffsetMs
    rw [hz]
  have h2 : ∀ r : Int, getTimezoneOffsetMs tzdb "UTC" r = 0 := by
    intro r
    unfold getTimezoneOffsetMs
    rw [hutc]
    simp
  refine ⟨h1 ref, ?_⟩
  unfold computeReminders
  rw [h1, h2]

/-- C8, witness: the unresolvable name "Not/AZone" gives offset 0 and the
UTC plan at the Scenario-A inputs. -/
theorem C8_invalid_timezone_witness :
    getTimezoneOffsetMs demoTzdb "Not/AZone" 5 = 0
    ∧ computeReminders demoTzdb ⟨2025, 6, 10⟩ 1748736000000 "Not/AZone"
        = computeReminders demoTzdb ⟨2025, 6, 10⟩ 1748736000000 "UTC" :=
  C8_invalid_timezone demoTzdb ⟨2025, 6, 10⟩ 1748736000000 5 "Not/AZone" rfl rfl

/-- C1: claimAndSendReminder succeeds exactly when the reminder is PENDING
and immediately leaves every row with that id non-PENDING; a second claim
on the same reminder returns false and affects zero rows (the database is
unchanged); and across any sequence of sweep invocations at most one email
attempt is ever made for a given reminder id. -/
theorem C1_claim_idempotent (db : DB) (rid : Nat) (now now2 : Int)
    (sweeps : List (Int × Option ResendClient)) :
    ((claimAndSendReminder db rid now).1 = true
        ↔ ∃ r ∈ db.reminders, r.id = rid ∧ r.status = RStatus.PENDING)
    ∧ (∀ r ∈ (claimAndSendReminder db rid now).2.reminders,
        r.id = rid → r.status ≠ RStatus.PENDING)
    ∧ claimAndSendReminder (claimAndSendReminder db rid now).2 rid now2
        = (false, (claimAndSendReminder db rid now).2)
    ∧ sweepAttemptsFor rid db sweeps ≤ 1 := by
  have hnp := noPendingFor_after_claim db rid now
  refine ⟨claim_fst_iff db rid now, hnp, ?_, sweepAttemptsFor_le_one rid db sweeps⟩
  have h1 := claim_fst_false_of_noPending
    (claimAndSendReminder db rid now).2 rid now2 hnp
  have h2 := claim_snd_id_of_noPending
    (claimAndSendReminder db rid now).2 rid now2 hnp
  exact Prod.ext h1 h2

/-- C1, witness: the demo database has one PENDING reminder with id 0, the
claim succeeds, and its email attempts across two sweeps stay at most 1. -/
theorem C1_claim_idempotent_witness :
    (claimAndSendReminder demoDb 0 10).1 = true
    ∧ sweepAttemptsFor 0 demoDb [(10, none), (20, none)] ≤ 1 :=
  ⟨(C1_claim_idempotent demoDb 0 10 20 []).1.mpr
      ⟨demoReminder, by decide, rfl, rfl⟩,
   (C1_claim_idempotent demoDb 0 10 20 [(10, none), (20, none)]).2.2.2⟩

/-- C9: the summary of processRemindersNow always satisfies
emailsAttemptedCount = emailsSentCount + failedCount,
failures.length = failedCount, and
emailsAttemptedCount ≤ remindersProcessedCount (the number of due
candidates fetched at the start of the sweep). -/
theorem C9_summary_arithmetic (resend : Option ResendClient) (db : DB) (now : Int) :
    (processRemindersNow resend db now).1.emailsAttemptedCount
        = (processRemindersNow resend db now).1.emailsSentCount
          + (processRemindersNow resend db now).1.failedCount
    ∧ (processRemindersNow resend db now).1.failures.length
        = (processRemindersNow resend db now).1.failedCount
    ∧ (processRemindersNow resend db now).1.emailsAttemptedCount
        ≤ (processRemindersNow resend db now).1.remindersProcessedCount := by
  obtain ⟨h1, h2, h3⟩ := dispatchLoop_counts resend now (getDueReminders db now) db
  exact ⟨h1, h2, h3⟩

/-- C3, counterexample.  In the demo database the single reminder is
PENDING; the claim step of the sweep (claimAndSendReminder) moves it to
SENT, and when delivery then fails the sweep moves it on to FAILED.  So a
reminder whose delivery fails does not move from PENDING directly to
FAILED: it occupies SENT in between, refuting the claimed transition
PENDING→FAILED with no intermediate state. -/
theorem C3_counterexample :
    demoDb.reminders.map (fun r => r.status) = [RStatus.PENDING]
    ∧ (claimAndSendReminder demoDb 0 10).2.reminders.map (fun r => r.status)
        = [RStatus.SENT]
    ∧ (processRemindersNow (some failClient) demoDb 10).2.reminders.map
        (fun r => r.status) = [RStatus.FAILED] := by
  decide

/-- C3, amended: PENDING is the only claimable state; a successful claim
immediately records SENT (the claim is implemented by writing SENT
optimistically); on delivery failure the row then moves SENT→FAILED; no
operation of the sweep ever returns a row to PENDING (a row that is
PENDING after any sequence of sweeps is an untouched original row), and
trial cancellation moves PENDING rows to SKIPPED, never back. -/
theorem C3_amended_state_machine (db : DB) (rid tid : Nat) (now : Int)
    (err : String) (sweeps : List (Int × Option ResendClient)) :
    ((claimAndSendReminder db rid now).1 = true
        ↔ ∃ r ∈ db.reminders, r.id = rid ∧ r.status = RStatus.PENDING)
    ∧ (∀ r ∈ (sweepSeq db sweeps).reminders,
        r.status = RStatus.PENDING → r ∈ db.reminders)
    ∧ (∀ r ∈ db.reminders, r.id = rid → r.status = RStatus.PENDING →
        (∃ r1 ∈ (claimAndSendReminder db rid now).2.reminders,
            r1.id = rid ∧ r1.status = RStatus.SENT)
        ∧ (∃ r2 ∈ (markReminderFailed (claimAndSendReminder db rid now).2
              rid err).reminders,
            r2.id = rid ∧ r2.status = RStatus.FAILED))
    ∧ (∀ r ∈ (skipRemindersByTrial db tid).reminders,
        r.status = RStatus.PENDING → r ∈ db.reminders) := by
  refine ⟨claim_fst_iff db rid now, pending_mem_sweepSeq db sweeps, ?_, ?_⟩
  · intro r hr hid hst
    constructor
    · refine ⟨claimUpdate rid now r, List.mem_map_of_mem _ hr, ?_, ?_⟩
      · rw [claimUpdate_id]
        exact hid
      · unfold claimUpdate
        rw [if_pos ⟨hid, hst⟩]
    · refine ⟨markFailedUpdate rid err (claimUpdate rid now r),
        List.mem_map_of_mem _ (List.mem_map_of_mem _ hr), ?_, ?_⟩
      · rw [markFailedUpdate_id, claimUpdate_id]
        exact hid
      · unfold markFailedUpdate
        rw [if_pos (by rw [claimUpdate_id]; exact hid)]
  · exact pending_mem_map db.reminders (skipUpdate tid)
      (skipUpdate_pending_fix tid)

/-- C3, witness for the amended theorem: the demo reminder is PENDING with
id 0, and the failing path exhibits the SENT intermediate row and the
FAILED final row. -/
theorem C3_amended_state_machine_witness :
    (∃ r1 ∈ (claimAndSendReminder demoDb 0 10).2.reminders,
        r1.id = 0 ∧ r1.status = RStatus.SENT)
    ∧ (∃ r2 ∈ (markReminderFailed (claimAndSendReminder demoDb 0 10).2
          0 "rate limited").reminders,
        r2.id = 0 ∧ r2.status = RStatus.FAILED) :=
  (C3_amended_state_machine demoDb 0 0 10 "rate limited" []).2.2.1
    demoReminder (by decide) rfl rfl

/-- A claim whose flag is false affected zero rows: the database is
unchanged. -/
theorem claim_snd_id_of_fst_false (db : DB) (rid : Nat) (now : Int)
    (h : (claimAndSendReminder db rid now).1 = false) :
    (claimAndSendReminder db rid now).2 = db := by
  apply claim_snd_id_of_noPending
  intro r hr hid hst
  have h2 : (claimAndSendReminder db rid now).1 = true :=
    (claim_fst_iff db rid now).2 ⟨r, hr, hid, hst⟩
  rw [h] at h2
  exact Bool.noConfusion h2

/-- claimAndSendReminder preserves AllSentFor: any row it rewrites is
rewritten to SENT. -/
theorem allSentFor_claim (db : DB) (rid : Nat) (now : Int) (j : Nat)
    (h : AllSentFor db j) : AllSentFor (claimAndSendReminder db rid now).2 j := by
  intro r' hr' hid
  obtain ⟨r, hr, rfl⟩ := List.mem_map.1 hr'
  unfold claimUpdate at hid ⊢
  by_cases hc : r.id = rid ∧ r.status = RStatus.PENDING
  · rw [if_pos hc]
  · rw [if_neg hc] at hid ⊢
    exact h r hr hid

/-- markReminderSent preserves AllSentFor. -/
theorem allSentFor_markSent (db : DB) (rid : Nat) (now : Int)
    (pmid : Option String) (j : Nat) (h : AllSentFor db j) :
    AllSentFor (markReminderSent db rid now pmid) j := by
  intro r' hr' hid
  obtain ⟨r, hr, rfl⟩ := List.mem_map.1 hr'
  unfold markSentUpdate at hid ⊢
  by_cases hc : r.id = rid
  · rw [if_pos hc]
  · rw [if_neg hc] at hid ⊢
    exact h r hr hid

/-- After markReminderSent for an id, every row with that id is SENT
(the UPDATE is unconditional on the current status). -/
theorem allSentFor_after_markSent (db : DB) (rid : Nat) (now : Int)
    (pmid : Option String) : AllSentFor (markReminderSent db rid now pmid) rid := by
  intro r' hr' hid
  obtain ⟨r, hr, rfl⟩ := List.mem_map.1 hr'
  unfold markSentUpdate at hid ⊢
  by_cases hc : r.id = rid
  · rw [if_pos hc]
  · rw [if_neg hc] at hid
    exact absurd hid hc

/-- A claim and markReminderSent targeting a different id leave the rows of
id j untouched, so HasPendingFor j is preserved. -/
theorem hasPendingFor_claim_markSent_of_ne (db : DB) (rid : Nat) (now : Int)
    (pmid : Option String) (j : Nat) (hne : j ≠ rid) (h : HasPendingFor db j) :
    HasPendingFor (markReminderSent (claimAndSendReminder db rid now).2
      rid now pmid) j := by
  obtain ⟨r, hr, hid, hst⟩ := h
  have hne2 : r.id ≠ rid := by
    rw [hid]
    exact hne
  have h1 : claimUpdate rid now r = r := claimUpdate_eq_self_of_ne rid now r hne2
  have h2 : markSentUpdate rid now pmid r = r :=
    markSentUpdate_eq_self_of_ne rid now pmid r hne2
  refine ⟨markSentUpdate rid now pmid (claimUpdate rid now r),
    List.mem_map_of_mem _ (List.mem_map_of_mem _ hr), ?_⟩
  rw [h1, h2]
  exact ⟨hid, hst⟩

/-- With no configured email client every delivery succeeds, so the
dispatch loop preserves AllSentFor. -/
theorem allSentFor_dispatchLoop_none (now : Int) (rows : List DueRow)
    (db : DB) (j : Nat) (h : AllSentFor db j) :
    AllSentFor (dispatchLoop none now rows db).1 j := by
  induction rows generalizing db with
  | nil => exact h
  | cons row rest ih =>
    unfold dispatchLoop
    simp only []
    split
    · rw [if_pos (show (sendReminderEmail none row.trial row.user
          row.reminder.type).success = true from rfl)]
      exact ih _ (allSentFor_markSent _ _ _ _ _ (allSentFor_claim _ _ _ _ h))
    · exact ih _ (allSentFor_claim _ _ _ _ h)

/-- With no configured email client, once a reminder id occurs among the
processed rows and either has a PENDING row or is already all-SENT, the
dispatch loop leaves every row with that id SENT. -/
theorem allSentFor_dispatchLoop_none_of_mem (now : Int) (rows : List DueRow)
    (db : DB) (j : Nat) (hin : ∃ x ∈ rows, x.reminder.id = j)
    (h : HasPendingFor db j ∨ AllSentFor db j) :
    AllSentFor (dispatchLoop none now rows db).1 j := by
  induction rows generalizing db with
  | nil => exact absurd hin (by simp)
  | cons row rest ih =>
    unfold dispatchLoop
    simp only []
    split
    · rename_i hclaim
      rw [if_pos (show (sendReminderEmail none row.trial row.user
          row.reminder.type).success = true from rfl)]
      by_cases hid : row.reminder.id = j
      · have hall : AllSentFor (markReminderSent
            (claimAndSendReminder db row.reminder.id now).2 row.reminder.id now
            (sendReminderEmail none row.trial row.user
              row.reminder.type).messageId) j := by
          rw [← hid]
          exact allSentFor_after_markSent _ _ _ _
        exact allSentFor_dispatchLoop_none now rest _ j hall
      · obtain ⟨x, hx, hxj⟩ := hin
        rcases List.mem_cons.1 hx with rfl | hxrest
        · exact absurd hxj hid
        · refine ih _ ⟨x, hxrest, hxj⟩ ?_
          rcases h with hp | ha
          · exact Or.inl (hasPendingFor_claim_markSent_of_ne _ _ _ _ _
              (fun hh => hid hh.symm) hp)
          · exact Or.inr (allSentFor_markSent _ _ _ _ _
              (allSentFor_claim _ _ _ _ ha))
    · rename_i hclaim
      have hfalse : (claimAndSendReminder db row.reminder.id now).1 = false := by
        cases hb : (claimAndSendReminder db row.reminder.id now).1
        · rfl
        · exact absurd hb hclaim
      have hdb := claim_snd_id_of_fst_false db row.reminder.id now hfalse
      by_cases hid : row.reminder.id = j
      · rcases h with hp | ha
        · exfalso
          obtain ⟨r, hr, hrj, hrst⟩ := hp
          have : (claimAndSendReminder db row.reminder.id now).1 = true :=
            (claim_fst_iff db row.reminder.id now).2
              ⟨r, hr, by rw [hrj, hid], hrst⟩
          rw [hfalse] at this
          exact Bool.noConfusion this
        · rw [hdb]
          exact allSentFor_dispatchLoop_none now rest db j ha
      · obtain ⟨x, hx, hxj⟩ := hin
        rcases List.mem_cons.1 hx with rfl | hxrest
        · exact absurd hxj hid
        · rw [hdb]
          exact ih db ⟨x, hxrest, hxj⟩ h

/-- With no configured email client the failure branch of the dispatch
loop is unreachable: no failures, and every attempt counts as sent. -/
theorem dispatchLoop_none_counts (now : Int) (rows : List DueRow) (db : DB) :
    (dispatchLoop none now rows db).2.2.2.1 = 0
    ∧ (dispatchLoop none now rows db).2.2.2.2 = []
    ∧ (dispatchLoop none now rows db).2.2.1 = (dispatchLoop none now rows db).2.1 := by
  induction rows generalizing db with
  | nil => exact ⟨rfl, rfl, rfl⟩
  | cons row rest ih =>
    unfold dispatchLoop
    simp only []
    split
    · rw [if_pos (show (sendReminderEmail none row.trial row.user
          row.reminder.type).success = true from rfl)]
      obtain ⟨h1, h2, h3⟩ := ih (markReminderSent
        (claimAndSendReminder db row.reminder.id now).2 row.reminder.id now
        (sendReminderEmail none row.trial row.user row.reminder.type).messageId)
      dsimp only
      exact ⟨h1, h2, by omega⟩
    · exact ih _

/-- C10: with no configured Resend client, sendReminderEmail reports
success with messageId "console-only" without any external send, so a
sweep in that configuration records no failures, counts every attempt as
sent, and marks every due reminder SENT even though no email was
delivered. -/
theorem C10_console_only (trial : TrialRow) (user : UserRow) (rtype : String)
    (db : DB) (now : Int) :
    sendReminderEmail none trial user rtype
        = { success := true, messageId := some "console-only", error := none }
    ∧ (processRemindersNow none db now).1.failedCount = 0
    ∧ (processRemindersNow none db now).1.failures = []
    ∧ (processRemindersNow none db now).1.emailsSentCount
        = (processRemindersNow none db now).1.emailsAttemptedCount
    ∧ ∀ x ∈ getDueReminders db now,
        ∀ r ∈ (processRemindersNow none db now).2.reminders,
          r.id = x.reminder.id → r.status = RStatus.SENT := by
  obtain ⟨h1, h2, h3⟩ := dispatchLoop_none_counts now (getDueReminders db now) db
  refine ⟨rfl, h1, h2, h3, ?_⟩
  intro x hx r hr hid
  obtain ⟨hmem, _, _, _, _, hpend, _, _⟩ := mem_getDueReminders db now x hx
  have hall : AllSentFor (dispatchLoop none now (getDueReminders db now) db).1
      x.reminder.id :=
    allSentFor_dispatchLoop_none_of_mem now (getDueReminders db now) db
      x.reminder.id ⟨x, hx, rfl⟩ (Or.inl ⟨x.reminder, hmem, rfl, hpend⟩)
  exact hall r hr hid

/-- C10, witness: in the demo database the due reminder is claimed and
marked SENT by a console-only sweep, and the no-client send result is the
console-only success. -/
theorem C10_console_only_witness :
    sendReminderEmail none demoTrial demoUser "ONE_DAY"
        = { success := true, messageId := some "console-only", error := none }
    ∧ (⟨0, 0, 0, 0, "ONE_DAY", RStatus.SENT, some 10, some "console-only", none⟩
        : ReminderRow).status = RStatus.SENT :=
  ⟨(C10_console_only demoTrial demoUser "ONE_DAY" demoDb 10).1,
   (C10_console_only demoTrial demoUser "ONE_DAY" demoDb 10).2.2.2.2
     ⟨demoReminder, demoTrial, demoUser⟩ (by decide) _ (by decide) rfl⟩

/-- cancelUpdate keeps the trial id. -/
theorem cancelUpdate_id (tid uid : Nat) (now : Int) (t : TrialRow) :
    (cancelUpdate tid uid now t).id = t.id := by
  unfold cancelUpdate
  split <;> rfl

/-- A row skipUpdate leaves SENT was untouched. -/
theorem skipUpdate_sent_fix (tid : Nat) (r : ReminderRow)
    (h : (skipUpdate tid r).status = RStatus.SENT) : skipUpdate tid r = r := by
  unfold skipUpdate at h ⊢
  by_cases hc : r.trialId = tid ∧ r.status = RStatus.PENDING
  · rw [if_pos hc] at h
    exact RStatus.noConfusion h
  · rw [if_neg hc]

/-- Filtering commutes away a row map that preserves the predicate and
fixes every selected row. -/
theorem filter_map_eq_of_fix (l : List ReminderRow) (f : ReminderRow → ReminderRow)
    (p : ReminderRow → Bool) (hp : ∀ r, p (f r) = p r)
    (hfix : ∀ r ∈ l, p r = true → f r = r) :
    (l.map f).filter p = l.filter p := by
  induction l with
  | nil => rfl
  | cons r rest ih =>
    simp only [List.map_cons, List.filter_cons, hp r]
    by_cases hr : p r = true
    · rw [if_pos hr, if_pos hr, hfix r (List.mem_cons_self r rest) hr,
        ih (fun a ha hpa => hfix a (List.mem_cons_of_mem r ha) hpa)]
    · rw [if_neg hr, if_neg hr,
        ih (fun a ha hpa => hfix a (List.mem_cons_of_mem r ha) hpa)]

/-- In a state where every trial row with the given id is CANCELED, no due
row is a reminder of that trial: the join condition requires an ACTIVE
trial. -/
theorem due_reminder_trialId_ne (db : DB) (now : Int) (tid : Nat) (x : DueRow)
    (htrials : ∀ t ∈ db.trials, t.id = tid → t.status = TStatus.CANCELED)
    (hx : x ∈ getDueReminders db now) : x.reminder.trialId ≠ tid := by
  obtain ⟨_, htm, _, hjoin, _, _, _, hact⟩ := mem_getDueReminders db now x hx
  intro hts
  have hcan : x.trial.status = TStatus.CANCELED :=
    htrials x.trial htm (by rw [← hjoin, hts])
  rw [hact] at hcan
  exact TStatus.noConfusion hcan

/-- Transfer of the guard condition "no selected row shares an id with a
processed row" across an id- and trialId-preserving row map. -/
theorem trialRows_guard_map (tid : Nat) (rows : List DueRow)
    (l : List ReminderRow) (f : ReminderRow → ReminderRow)
    (hid : ∀ r, (f r).id = r.id) (htr : ∀ r, (f r).trialId = r.trialId)
    (h : ∀ x ∈ rows, ∀ r ∈ l, r.trialId = tid → r.id ≠ x.reminder.id) :
    ∀ x ∈ rows, ∀ r ∈ l.map f, r.trialId = tid → r.id ≠ x.reminder.id := by
  intro x hx r' hr' htid
  obtain ⟨r, hr, rfl⟩ := List.mem_map.1 hr'
  rw [htr] at htid
  rw [hid]
  exact h x hx r hr htid

/-- As long as no processed due row shares an id with a reminder of the
given trial, the dispatch loop leaves that trial's reminder rows exactly
as they were. -/
theorem dispatchLoop_preserves_trial_rows (rc : Option ResendClient) (now : Int)
    (tid : Nat) (rows : List DueRow) (db : DB)
    (hrows : ∀ x ∈ rows, ∀ r ∈ db.reminders, r.trialId = tid → r.id ≠ x.reminder.id) :
    (dispatchLoop rc now rows db).1.reminders.filter
        (fun r => decide (r.trialId = tid))
      = db.reminders.filter (fun r => decide (r.trialId = tid)) := by
  induction rows generalizing db with
  | nil => rfl
  | cons row rest ih =>
    have hhead : ∀ r ∈ db.reminders, decide (r.trialId = tid) = true →
        r.id ≠ row.reminder.id := by
      intro r hr hdec
      exact hrows row (List.mem_cons_self row rest) r hr (of_decide_eq_true hdec)
    have htail : ∀ x ∈ rest, ∀ r ∈ db.reminders, r.trialId = tid →
        r.id ≠ x.reminder.id :=
      fun x hx => hrows x (List.mem_cons_of_mem row hx)
    have hpc : ∀ r : ReminderRow,
        decide ((claimUpdate row.reminder.id now r).trialId = tid)
          = decide (r.trialId = tid) := by
      intro r
      rw [claimUpdate_trialId]
    have hfc : ∀ r ∈ db.reminders, decide (r.trialId = tid) = true →
        claimUpdate row.reminder.id now r = r := by
      intro r hr hdec
      exact claimUpdate_eq_self_of_ne _ _ _ (hhead r hr hdec)
    have hstep1 : (db.reminders.map (claimUpdate row.reminder.id now)).filter
          (fun r => decide (r.trialId = tid))
        = db.reminders.filter (fun r => decide (r.trialId = tid)) :=
      filter_map_eq_of_fix _ _ _ hpc hfc
    have htail1 := trialRows_guard_map tid rest db.reminders
      (claimUpdate row.reminder.id now) (claimUpdate_id _ _)
      (claimUpdate_trialId _ _) htail
    have hhead1 : ∀ r ∈ db.reminders.map (claimUpdate row.reminder.id now),
        decide (r.trialId = tid) = true → r.id ≠ row.reminder.id := by
      intro r' hr' hdec
      obtain ⟨r, hr, rfl⟩ := List.mem_map.1 hr'
      rw [claimUpdate_id]
      rw [claimUpdate_trialId] at hdec
      exact hhead r hr hdec
    unfold dispatchLoop
    simp only []
    split
    · split
      · rw [ih _ (trialRows_guard_map tid rest _
            (markSentUpdate row.reminder.id now _) (markSentUpdate_id _ _ _)
            (markSentUpdate_trialId _ _ _) htail1)]
        show ((db.reminders.map (claimUpdate row.reminder.id now)).map
            (markSentUpdate row.reminder.id now
              (sendReminderEmail rc row.trial row.user
                row.reminder.type).messageId)).filter
            (fun r => decide (r.trialId = tid))
          = db.reminders.filter (fun r => decide (r.trialId = tid))
        rw [filter_map_eq_of_fix _ _ _
            (fun r => by rw [markSentUpdate_trialId])
            (fun r hr hdec => markSentUpdate_eq_self_of_ne _ _ _ _
              (hhead1 r hr hdec))]
        exact hstep1
      · rw [ih _ (trialRows_guard_map tid rest _
            (markFailedUpdate row.reminder.id _) (markFailedUpdate_id _ _)
            (markFailedUpdate_trialId _ _) htail1)]
        show ((db.reminders.map (claimUpdate row.reminder.id now)).map
            (markFailedUpdate row.reminder.id
              ((sendReminderEmail rc row.trial row.user
                row.reminder.type).error.getD "Unknown error"))).filter
            (fun r => decide (r.trialId = tid))
          = db.reminders.filter (fun r => decide (r.trialId = tid))
        rw [filter_map_eq_of_fix _ _ _
            (fun r => by rw [markFailedUpdate_trialId])
            (fun r hr hdec => markFailedUpdate_eq_self_of_ne _ _ _
              (hhead1 r hr hdec))]
        exact hstep1
    · rw [ih _ htail1]
      exact hstep1

/-- The dispatch loop preserves the list of reminder ids. -/
theorem dispatchLoop_ids (rc : Option ResendClient) (now : Int)
    (rows : List DueRow) (db : DB) :
    (dispatchLoop rc now rows db).1.reminders.map (fun r => r.id)
      = db.reminders.map (fun r => r.id) := by
  have h := dispatchLoop_pairs rc now rows db
  have e : ∀ l : List ReminderRow, l.map (fun r => r.id)
      = (l.map (fun r => (r.id, r.trialId))).map Prod.fst := by
    intro l
    rw [List.map_map]
    rfl
  rw [e, e, h]

/-- A sequence of sweeps never changes the trials table. -/
theorem sweepSeq_trials (db : DB) (sweeps : List (Int × Option ResendClient)) :
    (sweepSeq db sweeps).trials = db.trials := by
  induction sweeps generalizing db with
  | nil => rfl
  | cons s rest ih =>
    unfold sweepSeq
    rw [ih]
    exact dispatchLoop_trials s.2 s.1 (getDueReminders db s.1) db

/-- One sweep over a state where every trial row with the given id is
CANCELED and reminder ids are unique leaves that trial's reminder rows
exactly as they were. -/
theorem sweep_preserves_trial_rows (rc : Option ResendClient) (now : Int)
    (tid : Nat) (db : DB)
    (htrials : ∀ t ∈ db.trials, t.id = tid → t.status = TStatus.CANCELED)
    (hnodup : (db.reminders.map (fun r => r.id)).Nodup) :
    (processRemindersNow rc db now).2.reminders.filter
        (fun r => decide (r.trialId = tid))
      = db.reminders.filter (fun r => decide (r.trialId = tid)) := by
  show (dispatchLoop rc now (getDueReminders db now) db).1.reminders.filter
      (fun r => decide (r.trialId = tid))
    = db.reminders.filter (fun r => decide (r.trialId = tid))
  apply dispatchLoop_preserves_trial_rows
  intro x hx r hr htid hidEq
  have hxr := (mem_getDueReminders db now x hx).1
  have heq : r = x.reminder :=
    List.inj_on_of_nodup_map hnodup hr hxr hidEq
  rw [heq] at htid
  exact due_reminder_trialId_ne db now tid x htrials hx htid

/-- Any sequence of sweeps over a state where every trial row with the
given id is CANCELED and reminder ids are unique leaves that trial's
reminder rows exactly as they were. -/
theorem sweepSeq_preserves_trial_rows (tid : Nat) (db : DB)
    (sweeps : List (Int × Option ResendClient))
    (htrials : ∀ t ∈ db.trials, t.id = tid → t.status = TStatus.CANCELED)
    (hnodup : (db.reminders.map (fun r => r.id)).Nodup) :
    (sweepSeq db sweeps).reminders.filter (fun r => decide (r.trialId = tid))
      = db.reminders.filter (fun r => decide (r.trialId = tid)) := by
  induction sweeps generalizing db with
  | nil => rfl
  | cons s rest ih =>
    unfold sweepSeq
    have he1 : (processRemindersNow s.2 db s.1).2.trials = db.trials :=
      dispatchLoop_trials s.2 s.1 (getDueReminders db s.1) db
    have he2 : (processRemindersNow s.2 db s.1).2.reminders.map (fun r => r.id)
        = db.reminders.map (fun r => r.id) :=
      dispatchLoop_ids s.2 s.1 (getDueReminders db s.1) db
    have htrials2 : ∀ t ∈ (processRemindersNow s.2 db s.1).2.trials,
        t.id = tid → t.status = TStatus.CANCELED := by
      rw [he1]
      exact htrials
    have hnodup2 : ((processRemindersNow s.2 db s.1).2.reminders.map
        (fun r => r.id)).Nodup := by
      rw [he2]
      exact hnodup
    rw [ih _ htrials2 hnodup2]
    exact sweep_preserves_trial_rows s.2 s.1 tid db htrials hnodup

/-- C2: after cancelTrial and skipRemindersByTrial run for a trial (with
the trial id owned by the given user and unique reminder ids), no reminder
of that trial is ever returned by getDueReminders in any subsequent sweep
state, the trial's reminder rows are left exactly as the cancellation left
them, and any reminder of the trial that is SENT after any sequence of
sweeps was already SENT in the original database before the
cancellation. -/
theorem C2_cancellation_monotonic (db : DB) (tid uid : Nat) (cnow : Int)
    (hcover : ∀ t ∈ db.trials, t.id = tid → t.userId = uid)
    (hnodup : (db.reminders.map (fun r => r.id)).Nodup) :
    (∀ (sweeps : List (Int × Option ResendClient)) (now2 : Int),
      ∀ x ∈ getDueReminders
        (sweepSeq (skipRemindersByTrial (cancelTrial db tid uid cnow).2 tid) sweeps)
        now2, x.reminder.trialId ≠ tid)
    ∧ (∀ sweeps : List (Int × Option ResendClient),
        (sweepSeq (skipRemindersByTrial (cancelTrial db tid uid cnow).2 tid)
            sweeps).reminders.filter (fun r => decide (r.trialId = tid))
          = (skipRemindersByTrial (cancelTrial db tid uid cnow).2
              tid).reminders.filter (fun r => decide (r.trialId = tid)))
    ∧ (∀ sweeps : List (Int × Option ResendClient),
        ∀ r ∈ (sweepSeq (skipRemindersByTrial (cancelTrial db tid uid cnow).2 tid)
            sweeps).reminders,
          r.trialId = tid → r.status = RStatus.SENT →
            ∃ r0 ∈ db.reminders, r0.id = r.id ∧ r0.status = RStatus.SENT) := by
  have htrials1 : ∀ t ∈ (skipRemindersByTrial (cancelTrial db tid uid cnow).2
      tid).trials, t.id = tid → t.status = TStatus.CANCELED := by
    intro t' ht' hid
    have ht2 : t' ∈ db.trials.map (cancelUpdate tid uid cnow) := ht'
    obtain ⟨t, ht, rfl⟩ := List.mem_map.1 ht2
    rw [cancelUpdate_id] at hid
    have huid : t.userId = uid := hcover t ht hid
    unfold cancelUpdate
    rw [if_pos ⟨hid, huid⟩]
  have hnodup1 : ((skipRemindersByTrial (cancelTrial db tid uid cnow).2
      tid).reminders.map (fun r => r.id)).Nodup := by
    have he : (skipRemindersByTrial (cancelTrial db tid uid cnow).2
        tid).reminders.map (fun r => r.id) = db.reminders.map (fun r => r.id) :=
      map_ids_of_id_preserving db.reminders (skipUpdate tid) (skipUpdate_id tid)
    rw [he]
    exact hnodup
  refine ⟨?_, ?_, ?_⟩
  · intro sweeps now2 x hx
    have htrials2 : ∀ t ∈ (sweepSeq (skipRemindersByTrial
        (cancelTrial db tid uid cnow).2 tid) sweeps).trials,
        t.id = tid → t.status = TStatus.CANCELED := by
      rw [sweepSeq_trials]
      exact htrials1
    exact due_reminder_trialId_ne _ now2 tid x htrials2 hx
  · intro sweeps
    exact sweepSeq_preserves_trial_rows tid _ sweeps htrials1 hnodup1
  · intro sweeps r hr htid hst
    have hmem1 : r ∈ (sweepSeq (skipRemindersByTrial
        (cancelTrial db tid uid cnow).2 tid) sweeps).reminders.filter
        (fun r => decide (r.trialId = tid)) :=
      List.mem_filter.2 ⟨hr, decide_eq_true htid⟩
    rw [sweepSeq_preserves_trial_rows tid _ sweeps htrials1 hnodup1] at hmem1
    have hmem2 : r ∈ (skipRemindersByTrial (cancelTrial db tid uid cnow).2
        tid).reminders := (List.mem_filter.1 hmem1).1
    have hmem3 : r ∈ db.reminders.map (skipUpdate tid) := hmem2
    obtain ⟨r0, hr0, rfl⟩ := List.mem_map.1 hmem3
    have hfix := skipUpdate_sent_fix tid r0 hst
    rw [hfix] at hst ⊢
    exact ⟨r0, hr0, rfl, hst⟩

/-- C2, witness: cancelling the demo trial and skipping its reminders, a
following console-only sweep leaves the trial's reminder rows unchanged. -/
theorem C2_cancellation_monotonic_witness :
    (sweepSeq (skipRemindersByTrial (cancelTrial demoDb 0 0 5).2 0)
        [(10, none)]).reminders.filter (fun r => decide (r.trialId = 0))
      = (skipRemindersByTrial (cancelTrial demoDb 0 0 5).2
          0).reminders.filter (fun r => decide (r.trialId = 0)) :=
  (C2_cancellation_monotonic demoDb 0 0 5 (by decide) (by decide)).2.1 [(10, none)]

end Recalltrial
